import Mathlib

/-!
# Verification of the Nortek instrument driver protocol core

Shallow embedding of `mi/instrument/nortek/driver.py`: byte strings are
lists of naturals below 256 (Python 2 `str` characters via `ord`/`chr`),
fallible code returns `Except PyExc`, and the module-level mutable list of
dynamic sample structures is threaded as explicit state.  Each definition
is translated from the named source function; definitions whose source is
not part of this repository snapshot are marked `Modelled from the spec:`.
-/

namespace NortekDriver

/-- Python exceptions raised by the driver code, as a value-level error type.
`sampleExc` carries the message and, when the source passes it, the offending
buffer length (the length information of the wrong-length error). -/
inductive PyExc where
  | sampleExc (msg : String) (lenInfo : Option Nat)
  | valueError
  | instrumentTimeoutExc
  | instrumentStateExc (msg : String)
  | instrumentParameterExc (msg : String)
  | instrumentProtocolExc (msg : String)
  | readOnlyExc (msg : String)
  deriving DecidableEq, Repr

/-- A Python 2 byte string: list of byte values (each `ord c < 256`). -/
abbrev Bytes := List Nat

/-- Python slice `l[i:i+n]` for nonnegative `i`, `n` (clamps at the end). -/
def slice (l : Bytes) (i n : Nat) : Bytes := (l.drop i).take n

/-- `NortekProtocolParameterDict.convert_word_to_int` (driver.py:1050-1060):
two little-endian bytes to an integer; any other length raises
`SampleException` carrying the found length. -/
def convert_word_to_int (word : Bytes) : Except PyExc Nat :=
  match word with
  | [lo, hi] => .ok (lo + 0x100 * hi)
  | _ => .error (.sampleExc "Invalid number of bytes in word input! Found %s with input %s"
      (some word.length))

/-- `NortekProtocolParameterDict.word_to_string` (driver.py:1041-1048):
integer to two little-endian bytes. -/
def word_to_string (value : Nat) : Bytes :=
  [value % 0x100, (value / 0x100) % 0x100]

/-- `NortekProtocolParameterDict.convert_double_word_to_int` (driver.py:1071-1080). -/
def convert_double_word_to_int (dword : Bytes) : Except PyExc Nat :=
  if dword.length ≠ 4 then
    .error (.sampleExc "Invalid number of bytes in double word input! Found %s"
      (some dword.length))
  else do
    let low ← convert_word_to_int (slice dword 0 2)
    let high ← convert_word_to_int (slice dword 2 2)
    .ok (low + 0x10000 * high)

/-- Checksum seed constant `CHECK_SUM_SEED` (driver.py:69). -/
def CHECK_SUM_SEED : Nat := 0xb58c

/-- The loop body of `calculate_checksum` (driver.py:1162-1164): add `n`
successive 16-bit little-endian words starting at byte offset `i`, reducing
modulo 0x10000 at every step, propagating the wrong-length error
`convert_word_to_int` raises on a short final slice. -/
def checksumLoop (input : Bytes) : Nat → Nat → Nat → Except PyExc Nat
  | 0, acc, _ => .ok acc
  | n + 1, acc, i =>
    match convert_word_to_int (slice input i 2) with
    | .error e => .error e
    | .ok w => checksumLoop input n ((acc + w) % 0x10000) (i + 2)

/-- `NortekProtocolParameterDict.calculate_checksum` (driver.py:1154-1165)
with an explicit length argument: sums the words at offsets
`range(0, length - 2, 2)` seeded with `CHECK_SUM_SEED`.  The Python range
has `⌈(length-2)/2⌉` elements. -/
def calculate_checksum (input : Bytes) (length : Nat) : Except PyExc Nat :=
  checksumLoop input ((length - 2 + 1) / 2) CHECK_SUM_SEED 0

/-- Spec-side word sum for the checksum claim: the sum of the 16-bit
little-endian words at byte offsets `0, 2, ..., L - 4` (the words covering
`B[0 : L-2]`), written from the claim text for comparison with
`calculate_checksum`. -/
def specWordSum (B : Bytes) (L : Nat) : Nat :=
  ((List.range ((L - 2) / 2)).map
    (fun k => B.getD (2 * k) 0 + 0x100 * B.getD (2 * k + 1) 0)).sum

/-- `NortekProtocolParameterDict.convert_bytes_to_bit_field`, per-byte
expansion (driver.py:1094): `bin(ord(byte))[2:].rjust(8, '0')` produces,
for a byte value (< 256), exactly its 8 bits most-significant first. -/
def byteToBits (b : Nat) : List Nat :=
  [b / 128 % 2, b / 64 % 2, b / 32 % 2, b / 16 % 2,
   b / 8 % 2, b / 4 % 2, b / 2 % 2, b % 2]

/-- `NortekProtocolParameterDict.convert_bytes_to_bit_field`
(driver.py:1082-1097): reverse the bytes, expand each byte MSB-first into
8 bits, concatenate.  No length check is performed. -/
def convert_bytes_to_bit_field (bytes : Bytes) : List Nat :=
  bytes.reverse.flatMap byteToBits

/-- Per-byte body of `convert_words_to_datetime` (driver.py:1112-1114):
`int(byte.encode("hex"))` — the two hex digits of the byte read as a decimal
number; a hex digit above 9 makes Python `int` raise `ValueError`. -/
def bcdDecodeByte (b : Nat) : Except PyExc Nat :=
  if b / 16 ≤ 9 ∧ b % 16 ≤ 9 then .ok (10 * (b / 16) + b % 16)
  else .error .valueError

/-- Sequential `Except`-propagating map (a Python list comprehension whose
body may raise). -/
def mapExc (f : Nat → Except PyExc Nat) : List Nat → Except PyExc (List Nat)
  | [] => .ok []
  | x :: xs =>
    match f x with
    | .error e => .error e
    | .ok y =>
      match mapExc f xs with
      | .error e => .error e
      | .ok ys => .ok (y :: ys)

/-- `NortekProtocolParameterDict.convert_words_to_datetime`
(driver.py:1099-1116): 6 packed-BCD bytes to 6 integers; any other input
length raises `SampleException` carrying the found length. -/
def convert_words_to_datetime (bytes : Bytes) : Except PyExc (List Nat) :=
  if bytes.length ≠ 6 then
    .error (.sampleExc "Invalid number of bytes in input! Found %s" (some bytes.length))
  else mapExc bcdDecodeByte bytes

/-- Little-endian decimal digits of `n` (the digits of Python `str(n)`,
last digit first), with structural fuel so the kernel can evaluate it;
`decDigitsAux n n` is exact because `n` iterations always suffice. -/
def decDigitsAux : Nat → Nat → List Nat
  | 0, _ => []
  | _ + 1, 0 => []
  | fuel + 1, n => n % 10 :: decDigitsAux fuel (n / 10)

/-- Value of a little-endian digit list read in base 16. -/
def hexOfDigits : List Nat → Nat
  | [] => 0
  | d :: ds => d + 16 * hexOfDigits ds

/-- Python `int(str(n), 16)` (driver.py:1131): the decimal digits of `n`
reinterpreted as hexadecimal digits. -/
def pyIntStr16 (n : Nat) : Nat := hexOfDigits (decDigitsAux n n)

/-- Per-element body of `convert_datetime_to_words` (driver.py:1131):
`chr(int(str(n), 16))`; Python 2 `chr` raises `ValueError` at 256 or above. -/
def bcdEncodeInt (n : Nat) : Except PyExc Nat :=
  if pyIntStr16 n < 256 then .ok (pyIntStr16 n) else .error .valueError

/-- `NortekProtocolParameterDict.convert_datetime_to_words`
(driver.py:1118-1132): 6 integers re-encoded as 6 packed-BCD bytes; any
other input length raises `SampleException` carrying the found length. -/
def convert_datetime_to_words (int_array : List Nat) : Except PyExc Bytes :=
  if int_array.length ≠ 6 then
    .error (.sampleExc "Invalid number of bytes in date/time input! Found %s"
      (some int_array.length))
  else mapExc bcdEncodeInt int_array

/-! ## Chunker sieve (driver.py:1299-1343) -/

/-- Python `raw_data.find(sub, i)`: smallest index at or after `i` where the
whole pattern occurs, `none` if absent (structural fuel; `raw.length + 1 - i`
iterations always suffice). -/
def findFromAux (raw sub : Bytes) : Nat → Nat → Option Nat
  | 0, _ => none
  | fuel + 1, i =>
    if i + sub.length > raw.length then none
    else if slice raw i sub.length = sub then some i
    else findFromAux raw sub fuel (i + 1)

/-- Python `raw_data.find(sub, i)` with sufficient fuel. -/
def findFrom (raw sub : Bytes) (i : Nat) : Option Nat :=
  findFromAux raw sub (raw.length + 1 - i) i

instance {ε α : Type} [DecidableEq ε] [DecidableEq α] : DecidableEq (Except ε α) :=
  fun a b =>
  match a, b with
  | .ok x, .ok y => if h : x = y then isTrue (by rw [h]) else isFalse (by simp [h])
  | .error e, .error f => if h : e = f then isTrue (by rw [h]) else isFalse (by simp [h])
  | .ok _, .error _ => isFalse (by simp)
  | .error _, .ok _ => isFalse (by simp)

/-- The checksum comparison of the sieve (driver.py:1322-1326): recomputed
checksum over the candidate `raw[start : start+slen]` equals the trailing
two-byte little-endian word. -/
def checksumMatches (raw : Bytes) (start slen : Nat) : Bool :=
  decide (calculate_checksum (slice raw start slen) slen
    = convert_word_to_int (slice raw (start + slen - 2) 2))

/-- The per-structure `while start != -1` scan of `chunker_sieve_function`
(driver.py:1310-1331): find the next sync occurrence; if the whole candidate
has arrived and its checksum matches, emit `(start, start + slen)`; in every
found case — matched, mismatched, or incomplete — continue from
`index = start + slen`. -/
def scanStruct (raw sync : Bytes) (slen : Nat) : Nat → Nat → List (Nat × Nat)
  | 0, _ => []
  | fuel + 1, index =>
    match findFrom raw sync index with
    | none => []
    | some start =>
      if start + slen ≤ raw.length ∧ checksumMatches raw start slen then
        (start, start + slen) :: scanStruct raw sync slen fuel (start + slen)
      else
        scanStruct raw sync slen fuel (start + slen)

/-- `NORTEK_COMMON_SAMPLE_STRUCTS` (driver.py:94-96): the three fixed
(sync-bytes, length) structures — user config, hardware config, head config. -/
def NORTEK_COMMON_SAMPLE_STRUCTS : List (Bytes × Nat) :=
  [([0xa5, 0x00, 0x00, 0x01], 512),
   ([0xa5, 0x05, 0x18, 0x00], 48),
   ([0xa5, 0x04, 0x70, 0x00], 224)]

/-- The fixed-length pass of `chunker_sieve_function` (driver.py:1305-1331):
scan the buffer once per registered structure, in registration order,
gathering all emitted ranges. -/
def sieveFixed (structs : List (Bytes × Nat)) (raw : Bytes) : List (Nat × Nat) :=
  structs.flatMap (fun s => scanStruct raw s.1 s.2 (raw.length + 1) 0)

/-- Python `list.remove(x)`: drop the first element equal to `x`. -/
def removeFirst (x : Bytes × Nat) : List (Bytes × Nat) → List (Bytes × Nat)
  | [] => []
  | y :: ys => if y = x then ys else y :: removeFirst x ys

/-- The dynamic-structure pass of `chunker_sieve_function`
(driver.py:1335-1341), a Python `for` loop over the module-level list that
calls `remove` on it mid-iteration: CPython iterates by index, so removing
the current entry shifts the next entry into its slot and the loop skips it.
When an entry's sync string occurs, the emitted range is
`(start, start + len(sync))` — no checksum is computed — and the entry is
removed.  Returns the emitted ranges and the list's final state. -/
def dynLoop (raw : Bytes) : Nat → Nat → List (Bytes × Nat) →
    List (Nat × Nat) × List (Bytes × Nat)
  | 0, _, lst => ([], lst)
  | fuel + 1, i, lst =>
    match lst[i]? with
    | none => ([], lst)
    | some (sync, slen) =>
      match findFrom raw sync 0 with
      | none => dynLoop raw fuel (i + 1) lst
      | some start =>
        let rest := dynLoop raw fuel (i + 1) (removeFirst (sync, slen) lst)
        ((start, start + sync.length) :: rest.1, rest.2)

/-- `NortekInstrumentProtocol.chunker_sieve_function` (driver.py:1299-1343)
with the module-level `NORTEK_COMMON_DYNAMIC_SAMPLE_STRUCTS` list threaded
as explicit state `dyn`: the fixed-length pass over
`add_structs + NORTEK_COMMON_SAMPLE_STRUCTS` followed by the dynamic pass;
returns the emitted ranges in order and the new dynamic list. -/
def chunker_sieve_function (raw : Bytes) (add_structs : List (Bytes × Nat))
    (dyn : List (Bytes × Nat)) : List (Nat × Nat) × List (Bytes × Nat) :=
  let fixed := sieveFixed (add_structs ++ NORTEK_COMMON_SAMPLE_STRUCTS) raw
  let d := dynLoop raw (dyn.length + 1) 0 dyn
  (fixed ++ d.1, d.2)

/-! ## Configuration check and set output (driver.py:1953-2089) -/

/-- `InstrumentPrompts.Z_ACK` (driver.py:137). -/
def Z_ACK : Bytes := [0x06, 0x06]

/-- `NortekInstrumentProtocol._check_configuration` (driver.py:1953-1981):
a configuration response is accepted when its length is `length + 2`, it
ends with the two ACK bytes, it starts with the expected 4 sync bytes, and
the recomputed checksum equals the trailing word of the `length`-byte block. -/
def check_configuration (input : Bytes) (sync : Bytes) (length : Nat) :
    Except PyExc Bool :=
  if input.length ≠ length + 2 then .ok false
  else if slice input length 2 ≠ Z_ACK then .ok false
  else if slice input 0 4 ≠ sync then .ok false
  else
    match calculate_checksum input length with
    | .error e => .error e
    | .ok cc =>
      match convert_word_to_int (slice input (length - 2) 2) with
      | .error e => .error e
      | .ok sc => .ok (decide (sc = cc))

/-- The checksum-appending tail of `NortekInstrumentProtocol._create_set_output`
(driver.py:2080-2089).  The parameter serialization (driver.py:2063-2077) is
abstracted as the already-concatenated `body` (in the source, the 4 header
bytes `A5 00 00 01` followed by every formatted parameter): the inline loop
sums the words at `range(0, len(body), 2)` seeded with `CHECK_SUM_SEED` and
the encoded checksum word is appended to the body. -/
def create_set_output (body : Bytes) : Except PyExc Bytes :=
  match checksumLoop body ((body.length + 1) / 2) CHECK_SUM_SEED 0 with
  | .error e => .error e
  | .ok ck => .ok (body ++ word_to_string ck)

/-! ## Parameter registry (driver.py:967-1039)

`NortekProtocolParameterDict` extends `ProtocolParameterDict` (from
`mi/core`, not part of this snapshot); its mapping of names to parameter
entries — each holding a visibility, a wire formatter, and a current value
cell — is modelled as an ordered association list. -/

/-- `ParameterDictVisibility` values used by the driver. -/
inductive Visibility where
  | readWrite
  | readOnly
  | immutable
  deriving DecidableEq, Repr

/-- The two formatter families distinguished by `set_from_value`
(driver.py:1017-1023): `word_to_string`/`double_word_to_string` formatted
parameters take integers, every other parameter takes a string. -/
inductive VKind where
  | intKind
  | stringKind
  deriving DecidableEq, Repr

/-- A parameter value (`isinstance(value, int)` versus
`isinstance(value, str)`). -/
inductive PValue where
  | pInt (n : Int)
  | pStr (s : String)
  deriving DecidableEq, Repr

/-- The kind a value belongs to. -/
def valueKind : PValue → VKind
  | .pInt _ => .intKind
  | .pStr _ => .stringKind

/-- One registered parameter: visibility, formatter family, current value
cell. -/
structure ParamInfo where
  visibility : Visibility
  kind : VKind
  value : Option PValue
  deriving DecidableEq, Repr

/-- The registry's name-to-parameter mapping (`self._param_dict` inside
`NortekProtocolParameterDict`), as an ordered association list. -/
def Registry := List (String × ParamInfo)

instance : DecidableEq Registry :=
  inferInstanceAs (DecidableEq (List (String × ParamInfo)))

/-- First binding of `name` in the registry. -/
def Registry.lookup (reg : Registry) (name : String) : Option ParamInfo :=
  match reg with
  | [] => none
  | (n, p) :: rest => if n = name then some p else Registry.lookup rest name

/-- Replace the value of the first binding of `name`. -/
def Registry.setValue (reg : Registry) (name : String) (v : PValue) : Registry :=
  match reg with
  | [] => []
  | (n, p) :: rest =>
    if n = name then (n, { p with value := some v }) :: rest
    else (n, p) :: Registry.setValue rest name v

/-- `NortekProtocolParameterDict.set_from_value` (driver.py:1004-1028):
an unregistered name raises `InstrumentParameterException`; a value whose
type does not fit the parameter's formatter family (integer for word and
double-word formatted parameters, string otherwise) raises
`InstrumentParameterException`; then a READ_ONLY parameter raises
`ReadOnlyException` — no other visibility is checked — and otherwise the
value cell is updated. -/
def set_from_value (reg : Registry) (name : String) (v : PValue) :
    Except PyExc Registry :=
  match reg.lookup name with
  | none => .error (.instrumentParameterExc
      "Unable to set parameter %s to %s: parameter %s not an dictionary")
  | some p =>
    if p.kind = .intKind then
      if valueKind v ≠ .intKind then
        .error (.instrumentParameterExc
          "Unable to set parameter %s to %s: value not an integer")
      else if p.visibility = .readOnly then
        .error (.readOnlyExc
          "Unable to set parameter %s to %s: parameter %s is read only")
      else .ok (reg.setValue name v)
    else
      if valueKind v ≠ .stringKind then
        .error (.instrumentParameterExc
          "Unable to set parameter %s to %s: value not a string")
      else if p.visibility = .readOnly then
        .error (.readOnlyExc
          "Unable to set parameter %s to %s: parameter %s is read only")
      else .ok (reg.setValue name v)

/-- `NortekProtocolParameterDict.get_config` (driver.py:992-1002): snapshot
of the current value of every parameter whose key does not end in
`'Spare'`. -/
def get_config (reg : Registry) : List (String × Option PValue) :=
  reg.filterMap (fun np =>
    if np.1.endsWith "Spare" then none else some (np.1, np.2.value))

/-- The staging loop of `_handler_command_set` (driver.py:1634-1641): apply
`set_from_value` for each supplied name/value pair in order on the scratch
copy; the first rejection aborts, wrapped into
`InstrumentParameterException`. -/
def stageAll (reg : Registry) : List (String × PValue) → Except PyExc Registry
  | [] => .ok reg
  | (n, v) :: rest =>
    match set_from_value reg n v with
    | .error _ =>
      .error (.instrumentParameterExc "Unable to set parameter %s to %s: %s")
    | .ok reg2 => stageAll reg2 rest

/-- `InstrumentCmds.CONFIGURE_INSTRUMENT` = `'CC'` (driver.py:145). -/
def CONFIGURE_INSTRUMENT : Bytes := [0x43, 0x43]

/-- `NortekInstrumentProtocol._handler_command_set` (driver.py:1609-1655):
stage every pair into a copy of the registry (shallow `copy.copy`, modelled
as an independent value per spec §4.4 Set); on any rejection the whole
batch aborts before anything is sent; on success the command bytes and the
configuration block built from the staged copy are sent to the connection.
Returns the staged registry and the list of byte strings sent, in order.
The serialization of the staged registry (driver.py:2063-2077) is abstracted
as `serialize`. -/
def handler_command_set (reg : Registry) (params : List (String × PValue))
    (serialize : Registry → Bytes) : Except PyExc (Registry × List Bytes) :=
  match stageAll reg params with
  | .error e => .error e
  | .ok staged => .ok (staged, [CONFIGURE_INSTRUMENT, serialize staged])

/-- The byte strings a result of `handler_command_set` wrote to the
instrument connection (none when the handler raised). -/
def sentBytes : Except PyExc (Registry × List Bytes) → List Bytes
  | .error _ => []
  | .ok r => r.2

/-! ## Mode probe and discover (driver.py:1508-1539, 2026-2057) -/

/-- `InstrumentPrompts.COMMAND_MODE` = `'Command mode'` (driver.py:135). -/
def COMMAND_MODE : Bytes := [67, 111, 109, 109, 97, 110, 100, 32, 109, 111, 100, 101]

/-- `InstrumentPrompts.CONFIRMATION` = `'Confirm:'` (driver.py:136). -/
def CONFIRMATION : Bytes := [67, 111, 110, 102, 105, 114, 109, 58]

/-- `InstrumentPrompts.Z_NACK` (driver.py:138). -/
def Z_NACK : Bytes := [0x15, 0x15]

/-- `InstrumentModes.COMMAND` sentinel (driver.py:172). -/
def MODE_COMMAND : Bytes := [0x02, 0x00, 0x06, 0x06]

/-- `InstrumentModes.MEASUREMENT` sentinel (driver.py:171). -/
def MODE_MEASUREMENT : Bytes := [0x01, 0x00, 0x06, 0x06]

/-- `InstrumentModes.CONFIRMATION` sentinel (driver.py:174). -/
def MODE_CONFIRMATION : Bytes := [0x05, 0x00, 0x06, 0x06]

/-- Python `pattern in buf` for byte strings. -/
def containsBytes (buf pat : Bytes) : Bool := (findFrom buf pat 0).isSome

/-- One poll of `_get_mode` (driver.py:2050-2054): check the prompt list —
`BaseEnum.list()` order is `COMMAND_MODE`, `CONFIRMATION`, `Z_ACK`,
`Z_NACK` — and return the first prompt contained in the buffer, except that
`Z_NACK` is never returned (its branch skips, and it is last in the list). -/
def pollPrompt (buf : Bytes) : Option Bytes :=
  if containsBytes buf COMMAND_MODE then some COMMAND_MODE
  else if containsBytes buf CONFIRMATION then some CONFIRMATION
  else if containsBytes buf Z_ACK then some Z_ACK
  else none

/-- `NortekInstrumentProtocol._get_mode` (driver.py:2026-2057): send the
what-mode command, wait, poll the accumulated prompt buffer; repeat until a
prompt other than `Z_NACK` is found or the overall timeout elapses, which
raises `InstrumentTimeoutException`.  The successive prompt-buffer states
(one per probe iteration) are the input; exhausting them is the timeout.
Returns the matched prompt together with the buffer state at return time. -/
def get_mode : List Bytes → Except PyExc (Bytes × Bytes)
  | [] => .error .instrumentTimeoutExc
  | buf :: rest =>
    match pollPrompt buf with
    | some p => .ok (p, buf)
    | none => get_mode rest

/-- Protocol states relevant to discovery (driver.py:177-186). -/
inductive ProtoState where
  | command
  | autosample
  deriving DecidableEq, Repr

/-- Resource agent states returned by discover (driver.py:1520-1532). -/
inductive AgentState where
  | idle
  | streaming
  deriving DecidableEq, Repr

/-- `NortekInstrumentProtocol._handler_unknown_discover` (driver.py:1508-1539):
run the mode probe; 'Command mode' yields COMMAND, 'Confirm:' yields
AUTOSAMPLE, the bare ACK prompt is disambiguated by which mode sentinel
occurs in the accumulated prompt buffer (COMMAND sentinel first, then
MEASUREMENT or CONFIRMATION), and anything else raises
`InstrumentStateException`. -/
def handler_unknown_discover (snaps : List Bytes) :
    Except PyExc (ProtoState × AgentState) :=
  match get_mode snaps with
  | .error e => .error e
  | .ok (p, buf) =>
    if p = COMMAND_MODE then .ok (.command, .idle)
    else if p = CONFIRMATION then .ok (.autosample, .streaming)
    else if p = Z_ACK then
      if containsBytes buf MODE_COMMAND then .ok (.command, .idle)
      else if containsBytes buf MODE_MEASUREMENT || containsBytes buf MODE_CONFIRMATION then
        .ok (.autosample, .streaming)
      else .error (.instrumentStateExc "Unknown state.")
    else .error (.instrumentStateExc "Unknown state.")

/-! ## Spec-side bit-field inverse (spec §4.1) -/

/-- Value of an 8-bit MSB-first bit list. -/
def bitsToByte (bits : List Nat) : Nat :=
  bits.foldl (fun acc b => 2 * acc + b) 0

/-- Split a bit list into consecutive chunks of 8 (structural fuel;
`bits.length` iterations always suffice). -/
def chunk8Aux : Nat → List Nat → List (List Nat)
  | 0, _ => []
  | _ + 1, [] => []
  | fuel + 1, bits => bits.take 8 :: chunk8Aux fuel (bits.drop 8)

/-- Modelled from the spec: `bitfield_to_bytes` (spec §8 bitfield
round-trip; no such function exists under src/) — the inverse
reconstruction: take the bits 8 at a time MSB-first into bytes, then
reverse the byte order. -/
def bitfield_to_bytes (bits : List Nat) : Bytes :=
  ((chunk8Aux bits.length bits).map bitsToByte).reverse

/-! ## Helper definitions used by the theorems -/

/-- Plain word sum starting at offset `i`, `n` words, no modulus (helper to
state what `checksumLoop` computes). -/
def wsumFrom (B : Bytes) : Nat → Nat → Nat
  | 0, _ => 0
  | n + 1, i => (B.getD i 0 + 0x100 * B.getD (i + 1) 0) + wsumFrom B n (i + 2)

/-- A name/value pair `set_from_value` rejects: unknown name, mismatched
value kind, or read-only target. -/
def rejects (reg : Registry) (pv : String × PValue) : Prop :=
  match reg.lookup pv.1 with
  | none => True
  | some p => valueKind pv.2 ≠ p.kind ∨ p.visibility = .readOnly

/-- The registry in effect after a fallible registry operation: an exception
leaves the live registry as it was. -/
def regAfter (reg : Registry) : Except PyExc Registry → Registry
  | .error _ => reg
  | .ok reg2 => reg2

/-- The live registry in effect after `handler_command_set`: an exception
leaves it as it was. -/
def regAfterSet (reg : Registry) : Except PyExc (Registry × List Bytes) → Registry
  | .error _ => reg
  | .ok r => r.1

/-! ## Basic lemmas -/

theorem slice_two {B : Bytes} {i : Nat} (h : i + 2 ≤ B.length) :
    slice B i 2 = [B.getD i 0, B.getD (i + 1) 0] := by
  induction B generalizing i with
  | nil => simp at h
  | cons a t ih =>
    cases i with
    | zero =>
      rcases t with _ | ⟨b, t'⟩
      · simp at h
      · rfl
    | succ j =>
      have h' : j + 2 ≤ t.length := by
        simp only [List.length_cons] at h
        omega
      have e1 : slice (a :: t) (j + 1) 2 = slice t j 2 := by
        simp only [slice, List.drop_succ_cons]
      rw [e1, ih h']
      simp [List.getD_cons_succ]

theorem convert_word_to_int_two {B : Bytes} {i : Nat} (h : i + 2 ≤ B.length) :
    convert_word_to_int (slice B i 2) = .ok (B.getD i 0 + 0x100 * B.getD (i + 1) 0) := by
  rw [slice_two h]; rfl

theorem checksumLoop_step {B : Bytes} {i w : Nat} (n acc : Nat)
    (hw : convert_word_to_int (slice B i 2) = .ok w) :
    checksumLoop B (n + 1) acc i = checksumLoop B n ((acc + w) % 0x10000) (i + 2) := by
  rw [checksumLoop, hw]

theorem checksumLoop_ok {B : Bytes} :
    ∀ (n acc i : Nat), acc < 0x10000 → i + 2 * n ≤ B.length →
      checksumLoop B n acc i = .ok ((acc + wsumFrom B n i) % 0x10000) := by
  intro n
  induction n with
  | zero =>
    intro acc i hacc _
    simp [checksumLoop, wsumFrom, Nat.mod_eq_of_lt hacc]
  | succ m ih =>
    intro acc i hacc h
    have h2 : i + 2 ≤ B.length := by omega
    have hrec : (i + 2) + 2 * m ≤ B.length := by omega
    rw [checksumLoop_step m acc (convert_word_to_int_two h2),
      ih _ _ (Nat.mod_lt _ (by norm_num)) hrec]
    have : ((acc + (B.getD i 0 + 0x100 * B.getD (i + 1) 0)) % 0x10000
        + wsumFrom B m (i + 2)) % 0x10000
        = (acc + wsumFrom B (m + 1) i) % 0x10000 := by
      rw [Nat.mod_add_mod, wsumFrom]
      ring_nf
    rw [this]

theorem checksumLoop_lt {B : Bytes} :
    ∀ {n acc i c : Nat}, acc < 0x10000 → checksumLoop B n acc i = .ok c →
      c < 0x10000 := by
  intro n
  induction n with
  | zero =>
    intro acc i c hacc h
    rw [checksumLoop] at h
    cases h; exact hacc
  | succ m ih =>
    intro acc i c hacc h
    rcases hw : convert_word_to_int (slice B i 2) with e | w
    · rw [checksumLoop, hw] at h; cases h
    · rw [checksumLoop_step m acc hw] at h
      exact ih (Nat.mod_lt _ (by norm_num)) h

theorem checksumLoop_append {B t : Bytes} :
    ∀ (n acc i : Nat), i + 2 * n ≤ B.length →
      checksumLoop (B ++ t) n acc i = checksumLoop B n acc i := by
  intro n
  induction n with
  | zero => intro acc i _; rfl
  | succ m ih =>
    intro acc i h
    have h2 : i + 2 ≤ B.length := by omega
    have h2' : i + 2 ≤ (B ++ t).length := by simp; omega
    have hgd : (B ++ t).getD i 0 = B.getD i 0 :=
      List.getD_append _ _ _ _ (by omega)
    have hgd' : (B ++ t).getD (i + 1) 0 = B.getD (i + 1) 0 :=
      List.getD_append _ _ _ _ (by omega)
    rw [checksumLoop_step m acc (convert_word_to_int_two h2'),
      checksumLoop_step m acc (convert_word_to_int_two h2), hgd, hgd']
    exact ih _ _ (by omega)

theorem wsumFrom_eq_range {B : Bytes} :
    ∀ (n j : Nat), wsumFrom B n (2 * j)
      = ((List.range n).map
          (fun k => B.getD (2 * (j + k)) 0 + 0x100 * B.getD (2 * (j + k) + 1) 0)).sum := by
  intro n
  induction n with
  | zero => intro j; simp [wsumFrom]
  | succ m ih =>
    intro j
    have h2 : 2 * j + 2 = 2 * (j + 1) := by ring
    rw [wsumFrom, h2, ih (j + 1), List.range_succ_eq_map]
    simp only [List.map_cons, List.sum_cons, List.map_map, Function.comp]
    have harg : ∀ k : Nat, 2 * (j + 1 + k) = 2 * (j + (k + 1)) := by intro k; ring
    simp only [harg]
    congr 2

theorem findFromAux_sound {raw sub : Bytes} :
    ∀ (fuel i s : Nat), findFromAux raw sub fuel i = some s →
      s + sub.length ≤ raw.length ∧ slice raw s sub.length = sub := by
  intro fuel
  induction fuel with
  | zero => intro i s h; simp [findFromAux] at h
  | succ m ih =>
    intro i s h
    rw [findFromAux] at h
    by_cases hlen : i + sub.length > raw.length
    · rw [if_pos hlen] at h; cases h
    · rw [if_neg hlen] at h
      by_cases hsl : slice raw i sub.length = sub
      · rw [if_pos hsl] at h
        cases h
        exact ⟨Nat.le_of_not_lt hlen, hsl⟩
      · rw [if_neg hsl] at h
        exact ih _ _ h

theorem findFrom_sound {raw sub : Bytes} {i s : Nat} (h : findFrom raw sub i = some s) :
    s + sub.length ≤ raw.length ∧ slice raw s sub.length = sub :=
  findFromAux_sound _ _ _ h

theorem scanStruct_none {raw sync : Bytes} {slen fuel index : Nat}
    (hf : findFrom raw sync index = none) :
    scanStruct raw sync slen (fuel + 1) index = [] := by
  rw [scanStruct, hf]

theorem scanStruct_found {raw sync : Bytes} {slen fuel index start : Nat}
    (hf : findFrom raw sync index = some start) :
    scanStruct raw sync slen (fuel + 1) index =
      if start + slen ≤ raw.length ∧ checksumMatches raw start slen = true then
        (start, start + slen) :: scanStruct raw sync slen fuel (start + slen)
      else scanStruct raw sync slen fuel (start + slen) := by
  rw [scanStruct, hf]

theorem scanStruct_mem_wf {raw sync : Bytes} {slen : Nat} :
    ∀ (fuel index s e : Nat), (s, e) ∈ scanStruct raw sync slen fuel index →
      e = s + slen ∧ e ≤ raw.length ∧ slice raw s sync.length = sync ∧
        checksumMatches raw s slen = true := by
  intro fuel
  induction fuel with
  | zero => intro index s e h; simp [scanStruct] at h
  | succ m ih =>
    intro index s e h
    rcases hf : findFrom raw sync index with _ | start
    · rw [scanStruct_none hf] at h; simp at h
    · rw [scanStruct_found hf] at h
      by_cases hc : start + slen ≤ raw.length ∧ checksumMatches raw start slen = true
      · rw [if_pos hc] at h
        rcases List.mem_cons.mp h with heq | hrest
        · have hs : s = start := congrArg Prod.fst heq
          have he : e = start + slen := congrArg Prod.snd heq
          subst hs; subst he
          exact ⟨rfl, hc.1, (findFrom_sound hf).2, hc.2⟩
        · exact ih _ _ _ hrest
      · rw [if_neg hc] at h
        exact ih _ _ _ h

theorem setValue_lookup (reg : Registry) (n : String) (v : PValue) (m : String) :
    (reg.setValue n v).lookup m =
      if n = m then (reg.lookup m).map (fun p => { p with value := some v })
      else reg.lookup m := by
  induction reg with
  | nil => simp [Registry.setValue, Registry.lookup]
  | cons hd tl ih =>
    rcases hd with ⟨a, p⟩
    by_cases han : a = n
    · subst han
      by_cases ham : a = m
      · subst ham
        simp [Registry.setValue, Registry.lookup]
      · have hnm : ¬(a = m) := ham
        simp [Registry.setValue, Registry.lookup, hnm]
    · by_cases ham : a = m
      · subst ham
        have hnm : ¬(n = a) := fun hh => han hh.symm
        simp [Registry.setValue, Registry.lookup, han, hnm]
      · simp [Registry.setValue, Registry.lookup, han, ham, ih]

theorem set_from_value_error_of_rejects {reg : Registry} {n : String} {v : PValue}
    (h : rejects reg (n, v)) : ∃ e, set_from_value reg n v = .error e := by
  unfold rejects at h
  rcases hl : reg.lookup n with _ | p
  · exact ⟨.instrumentParameterExc
      "Unable to set parameter %s to %s: parameter %s not an dictionary",
      by simp [set_from_value, hl]⟩
  · rw [hl] at h
    by_cases hk : valueKind v ≠ p.kind
    · rcases hpk : p.kind with _ | _
      · have hv : valueKind v ≠ .intKind := by rw [hpk] at hk; exact hk
        exact ⟨.instrumentParameterExc
          "Unable to set parameter %s to %s: value not an integer",
          by simp [set_from_value, hl, hpk, hv]⟩
      · have hv : valueKind v ≠ .stringKind := by rw [hpk] at hk; exact hk
        exact ⟨.instrumentParameterExc
          "Unable to set parameter %s to %s: value not a string",
          by simp [set_from_value, hl, hpk, hv]⟩
    · have hro : p.visibility = .readOnly := by
        rcases h with h1 | h2
        · exact absurd h1 hk
        · exact h2
      have hkeq : valueKind v = p.kind := not_not.mp hk
      rcases hpk : p.kind with _ | _
      · have hv : valueKind v = .intKind := by rw [hpk] at hkeq; exact hkeq
        exact ⟨.readOnlyExc
          "Unable to set parameter %s to %s: parameter %s is read only",
          by simp [set_from_value, hl, hpk, hv, hro]⟩
      · have hv : valueKind v = .stringKind := by rw [hpk] at hkeq; exact hkeq
        exact ⟨.readOnlyExc
          "Unable to set parameter %s to %s: parameter %s is read only",
          by simp [set_from_value, hl, hpk, hv, hro]⟩

theorem set_from_value_ok_shape {reg reg2 : Registry} {n : String} {v : PValue}
    (h : set_from_value reg n v = .ok reg2) (m : String) :
    (reg2.lookup m).map (fun p => (p.visibility, p.kind))
      = (reg.lookup m).map (fun p => (p.visibility, p.kind)) := by
  have hset : reg2 = reg.setValue n v := by
    rcases hl : reg.lookup n with _ | p
    · simp only [set_from_value, hl] at h
      cases h
    · simp only [set_from_value, hl] at h
      by_cases hpk : p.kind = .intKind
      · rw [if_pos hpk] at h
        by_cases hv : valueKind v ≠ .intKind
        · rw [if_pos hv] at h; cases h
        · rw [if_neg hv] at h
          by_cases hro : p.visibility = .readOnly
          · rw [if_pos hro] at h; cases h
          · rw [if_neg hro] at h; exact (Except.ok.inj h).symm
      · rw [if_neg hpk] at h
        by_cases hv : valueKind v ≠ .stringKind
        · rw [if_pos hv] at h; cases h
        · rw [if_neg hv] at h
          by_cases hro : p.visibility = .readOnly
          · rw [if_pos hro] at h; cases h
          · rw [if_neg hro] at h; exact (Except.ok.inj h).symm
  subst hset
  rw [setValue_lookup]
  by_cases hnm : n = m
  · rw [if_pos hnm]
    rcases reg.lookup m with _ | q
    · rfl
    · rfl
  · rw [if_neg hnm]

theorem rejects_preserved {reg reg2 : Registry} {n : String} {v : PValue}
    {pv : String × PValue} (h : set_from_value reg n v = .ok reg2)
    (hr : rejects reg pv) : rejects reg2 pv := by
  have hs := set_from_value_ok_shape h pv.1
  unfold rejects at hr ⊢
  rcases h2 : reg2.lookup pv.1 with _ | q
  · trivial
  · rcases h1 : reg.lookup pv.1 with _ | p
    · rw [h1, h2] at hs; cases hs
    · rw [h1, h2] at hs
      have hs' : (q.visibility, q.kind) = (p.visibility, p.kind) := by
        simpa using hs
      have hv : q.visibility = p.visibility := congrArg Prod.fst hs'
      have hk : q.kind = p.kind := congrArg Prod.snd hs'
      rw [h1] at hr
      have hr' : valueKind pv.2 ≠ p.kind ∨ p.visibility = .readOnly := hr
      show valueKind pv.2 ≠ q.kind ∨ q.visibility = .readOnly
      rw [hv, hk]
      exact hr'

theorem stageAll_error_of_rejects :
    ∀ (params : List (String × PValue)) (reg : Registry) (pv : String × PValue),
      pv ∈ params → rejects reg pv →
      ∃ msg, stageAll reg params = .error (.instrumentParameterExc msg) := by
  intro params
  induction params with
  | nil => intro reg pv h _; simp at h
  | cons hd rest ih =>
    intro reg pv hmem hr
    rcases hd with ⟨n, v⟩
    rcases hs : set_from_value reg n v with e | reg2
    · exact ⟨_, by rw [stageAll, hs]⟩
    · rcases List.mem_cons.mp hmem with heq | hrest
      · subst heq
        rcases set_from_value_error_of_rejects hr with ⟨e, he⟩
        rw [he] at hs; cases hs
      · rcases ih reg2 pv hrest (rejects_preserved hs hr) with ⟨msg, hmsg⟩
        exact ⟨msg, by rw [stageAll, hs]; exact hmsg⟩

theorem mapExc_eq_ok_map {f : Nat → Except PyExc Nat} {g : Nat → Nat} :
    ∀ {l : List Nat}, (∀ x ∈ l, f x = .ok (g x)) → mapExc f l = .ok (l.map g) := by
  intro l
  induction l with
  | nil => intro _; rfl
  | cons a t ih =>
    intro h
    rw [mapExc, h a (List.mem_cons_self a t), ih (fun x hx => h x (List.mem_cons_of_mem a hx))]
    rfl

theorem pollPrompt_cases {buf p : Bytes} (h : pollPrompt buf = some p) :
    p = COMMAND_MODE ∨ p = CONFIRMATION ∨ p = Z_ACK := by
  unfold pollPrompt at h
  by_cases h1 : containsBytes buf COMMAND_MODE
  · rw [if_pos h1] at h; exact Or.inl (Option.some.inj h).symm
  · rw [if_neg h1] at h
    by_cases h2 : containsBytes buf CONFIRMATION
    · rw [if_pos h2] at h; exact Or.inr (Or.inl (Option.some.inj h).symm)
    · rw [if_neg h2] at h
      by_cases h3 : containsBytes buf Z_ACK
      · rw [if_pos h3] at h; exact Or.inr (Or.inr (Option.some.inj h).symm)
      · rw [if_neg h3] at h; cases h

set_option maxRecDepth 8192 in
/-- Per-byte bit round trip: an 8-bit MSB-first expansion folds back to the
byte (all 256 cases). -/
theorem bitsToByte_byteToBits : ∀ b : Fin 256, bitsToByte (byteToBits b.val) = b.val := by
  decide

set_option maxRecDepth 8192 in
/-- Per-byte BCD round trip: re-encoding a decoded valid packed-BCD byte
restores it (all 256 cases, guarded by the nibble bounds). -/
theorem bcdEncode_decode : ∀ b : Fin 256, b.val / 16 ≤ 9 → b.val % 16 ≤ 9 →
    bcdEncodeInt (10 * (b.val / 16) + b.val % 16) = .ok b.val := by
  decide

/-! ## Claim theorems -/

/-- C1 (amended to even lengths): for every byte string `B` and every even
length `L` with `4 ≤ L ≤ len B`, `calculate_checksum B L` equals
`0xb58c` plus the sum of the 16-bit little-endian words at byte offsets
`0, 2, ..., L-4` (the words covering `B[0:L-2]`), modulo `0x10000`; the
same computation is used on both directions: `_check_configuration`
accepts exactly when the recomputed checksum equals the trailing word (all
structural checks passing), the sieve emits a range only when the
recomputed checksum equals the trailing word of the candidate, and the
block built by `_create_set_output` ends with exactly this checksum of its
own preceding bytes. -/
theorem calculate_checksum_spec :
    (∀ (B : Bytes) (L : Nat), L % 2 = 0 → 4 ≤ L → L ≤ B.length →
      calculate_checksum B L = .ok ((CHECK_SUM_SEED + specWordSum B L) % 0x10000)) ∧
    (∀ (input sync : Bytes) (L : Nat),
      check_configuration input sync L = .ok true ↔
        (input.length = L + 2 ∧ slice input L 2 = Z_ACK ∧ slice input 0 4 = sync ∧
         (calculate_checksum input L).isOk = true ∧
         calculate_checksum input L = convert_word_to_int (slice input (L - 2) 2))) ∧
    (∀ body : Bytes, body.length % 2 = 0 →
      (create_set_output body).isOk = true ∧
      ∀ out, create_set_output body = .ok out →
        (calculate_checksum out (body.length + 2)).isOk = true ∧
        calculate_checksum out (body.length + 2)
          = convert_word_to_int (slice out body.length 2)) ∧
    (∀ (raw sync : Bytes) (slen fuel index s e : Nat),
      (s, e) ∈ scanStruct raw sync slen fuel index →
      calculate_checksum (slice raw s slen) slen
        = convert_word_to_int (slice raw (s + slen - 2) 2)) := by
  refine ⟨?_, ?_, ?_, ?_⟩
  · -- the checksum formula
    intro B L he h4 hlen
    have hn : (L - 2 + 1) / 2 = (L - 2) / 2 := by omega
    have h2n : 0 + 2 * ((L - 2 + 1) / 2) ≤ B.length := by omega
    rw [calculate_checksum, checksumLoop_ok _ _ _ (by decide) h2n]
    have hw : wsumFrom B ((L - 2 + 1) / 2) 0 = specWordSum B L := by
      have h0 := wsumFrom_eq_range (B := B) ((L - 2 + 1) / 2) 0
      simp only [Nat.mul_zero, Nat.zero_add] at h0
      rw [h0, specWordSum, hn]
    rw [hw]
  · -- _check_configuration compares recomputed checksum to trailing word
    intro input sync L
    constructor
    · intro h
      rw [check_configuration] at h
      by_cases h1 : input.length ≠ L + 2
      · rw [if_pos h1] at h; simp at h
      · rw [if_neg h1] at h
        by_cases h2 : slice input L 2 ≠ Z_ACK
        · rw [if_pos h2] at h; simp at h
        · rw [if_neg h2] at h
          by_cases h3 : slice input 0 4 ≠ sync
          · rw [if_pos h3] at h; simp at h
          · rw [if_neg h3] at h
            rcases hcc : calculate_checksum input L with e | cc
            · rw [hcc] at h; cases h
            · rw [hcc] at h
              rcases hsc : convert_word_to_int (slice input (L - 2) 2) with e | sc
              · rw [hsc] at h; cases h
              · rw [hsc] at h
                have heq : sc = cc := of_decide_eq_true (Except.ok.inj h)
                refine ⟨not_not.mp h1, not_not.mp h2, not_not.mp h3, ?_, ?_⟩
                · rfl
                · rw [heq]
    · rintro ⟨h1, h2, h3, hok, heq⟩
      rw [check_configuration, if_neg (not_not.mpr h1), if_neg (not_not.mpr h2),
        if_neg (not_not.mpr h3)]
      rcases hcc : calculate_checksum input L with e | cc
      · rw [hcc] at hok; cases hok
      · rw [hcc] at heq
        rw [← heq]
        simp
  · -- _create_set_output appends the checksum of its own preceding bytes
    intro body hev
    have h2n : 0 + 2 * ((body.length + 1) / 2) ≤ body.length := by omega
    have hck := checksumLoop_ok (B := body) ((body.length + 1) / 2) CHECK_SUM_SEED 0
      (by decide) h2n
    have hout : create_set_output body
        = .ok (body ++ word_to_string ((CHECK_SUM_SEED
            + wsumFrom body ((body.length + 1) / 2) 0) % 0x10000)) := by
      rw [create_set_output, hck]
    refine ⟨by rw [hout]; rfl, ?_⟩
    intro out ho
    rw [hout] at ho
    have hoeq := Except.ok.inj ho
    subst hoeq
    set ck := (CHECK_SUM_SEED + wsumFrom body ((body.length + 1) / 2) 0) % 0x10000 with hckdef
    have hcklt : ck < 0x10000 := Nat.mod_lt _ (by norm_num)
    have hlen1 : body.length + 2 - 2 + 1 = body.length + 1 := by omega
    have hcalc : calculate_checksum (body ++ word_to_string ck) (body.length + 2)
        = .ok ck := by
      rw [calculate_checksum, hlen1, checksumLoop_append _ _ _ h2n, hck]
    have htrail : slice (body ++ word_to_string ck) body.length 2 = word_to_string ck := by
      rw [slice, List.drop_left]
      rfl
    have hconv : convert_word_to_int (word_to_string ck) = .ok ck := by
      rw [word_to_string, convert_word_to_int]
      have hdiv : ck / 0x100 % 0x100 = ck / 0x100 :=
        Nat.mod_eq_of_lt (by omega)
      rw [hdiv]
      have : ck % 0x100 + 0x100 * (ck / 0x100) = ck := Nat.mod_add_div ck 0x100
      rw [this]
    rw [hcalc, htrail, hconv]
    exact ⟨rfl, rfl⟩
  · -- the sieve compares recomputed checksum to the trailing word
    intro raw sync slen fuel index s e hmem
    have hm := (scanStruct_mem_wf fuel index s e hmem).2.2.2
    exact of_decide_eq_true hm

/-- C1 counterexample: at the odd length `L = 5` the code sums the two words
at offsets 0 and 2 (the word at 2 covers bytes 2 and 3, one past
`B[0:L-2] = B[0:3]`), while the claimed formula (words at offsets
`0, 2, ..., L-4`, i.e. covering `B[0:3]`) has only the word at offset 0, so
on `B = [0,0,0,1,0]` the two disagree. -/
theorem calculate_checksum_odd_counterexample :
    calculate_checksum [0, 0, 0, 1, 0] 5 = .ok 0xb68c ∧
    (CHECK_SUM_SEED + specWordSum [0, 0, 0, 1, 0] 5) % 0x10000 = 0xb58c ∧
    (0xb68c : Nat) ≠ 0xb58c := by
  refine ⟨by decide, by decide, by decide⟩

/-- Witness for `calculate_checksum_spec`: each conjunct applied at a
concrete input with its hypotheses discharged. -/
theorem calculate_checksum_spec_witness :
    calculate_checksum [1, 0, 0, 0] 4
      = .ok ((CHECK_SUM_SEED + specWordSum [1, 0, 0, 0] 4) % 0x10000) ∧
    check_configuration [0, 0, 0x8c, 0xb5, 6, 6] [0, 0, 0x8c, 0xb5] 4 = .ok true ∧
    (create_set_output [1, 2]).isOk = true ∧
    calculate_checksum [1, 2, 0x8D, 0xB7] 4
      = convert_word_to_int (slice [1, 2, 0x8D, 0xB7] 2 2) ∧
    calculate_checksum (slice [0x10, 0x20, 0, 0, 0x9C, 0xD5] 0 6) 6
      = convert_word_to_int (slice [0x10, 0x20, 0, 0, 0x9C, 0xD5] 4 2) :=
  ⟨calculate_checksum_spec.1 [1, 0, 0, 0] 4 (by decide) (by decide) (by decide),
   (calculate_checksum_spec.2.1 [0, 0, 0x8c, 0xb5, 6, 6] [0, 0, 0x8c, 0xb5] 4).mpr
     (by decide),
   (calculate_checksum_spec.2.2.1 [1, 2] (by decide)).1,
   ((calculate_checksum_spec.2.2.1 [1, 2] (by decide)).2 [1, 2, 0x8D, 0xB7]
     (by decide)).2,
   calculate_checksum_spec.2.2.2 [0x10, 0x20, 0, 0, 0x9C, 0xD5] [0x10, 0x20]
     6 7 0 0 6 (by decide)⟩

/-- C2 (amended): `chunker_sieve_function` is a total function (it never
raises), and every range `(s, e)` its fixed-length pass emits belongs to
some registered structure and satisfies `e = s + fixed_length ≤ len buffer`,
the buffer contains the structure's sync marker at `s`, and the recomputed
checksum over `buffer[s:e]` equals the trailing two-byte word.  (The
original claim's noise-invariance and lower-start-wins conflict resolution
do not hold of the code: a failed sync candidate skips `fixed_length` bytes
and can mask a later valid frame, and ranges of different structures may
overlap; see the counterexample.) -/
theorem chunker_sieve_emits_wellformed :
    ∀ (structs : List (Bytes × Nat)) (raw : Bytes) (s e : Nat),
      (s, e) ∈ sieveFixed structs raw →
      ∃ sync slen, (sync, slen) ∈ structs ∧ e = s + slen ∧ e ≤ raw.length ∧
        slice raw s sync.length = sync ∧
        calculate_checksum (slice raw s slen) slen
          = convert_word_to_int (slice raw (s + slen - 2) 2) := by
  intro structs raw s e hmem
  rw [sieveFixed, List.mem_flatMap] at hmem
  rcases hmem with ⟨⟨sync, slen⟩, hstruct, hscan⟩
  have hw := scanStruct_mem_wf _ _ _ _ hscan
  exact ⟨sync, slen, hstruct, hw.1, hw.2.1, hw.2.2.1, of_decide_eq_true hw.2.2.2⟩

/-- C2 counterexample (to the claim as stated): with the registered
structure `(sync = 10 20, fixed_length = 6)`, the buffer holding just the
valid frame `10 20 00 00 9C D5` yields the range `(0, 6)`; prepending the
four noise bytes `10 20 00 00` (not themselves a valid frame) yields no
range at all — the failed candidate at offset 0 makes the scan skip to
offset 6, past the valid frame now at offset 4 — so noise insertion changes
the extracted frame set.  Moreover with two registered structures the
ranges `(0, 6)` and `(2, 8)` are both emitted on one buffer: emitted ranges
can overlap and the earlier range does not win. -/
theorem chunker_sieve_noise_counterexample :
    chunker_sieve_function [0x10, 0x20, 0, 0, 0x9C, 0xD5] [([0x10, 0x20], 6)] []
      = ([(0, 6)], []) ∧
    chunker_sieve_function [0x10, 0x20, 0, 0, 0x10, 0x20, 0, 0, 0x9C, 0xD5]
      [([0x10, 0x20], 6)] [] = ([], []) ∧
    chunker_sieve_function [1, 2, 3, 4, 0x90, 0xBB, 0x1F, 0x75, 0, 0]
      [([1, 2], 6), ([3, 4], 6)] [] = ([(0, 6), (2, 8)], []) := by
  refine ⟨by decide, by decide, by decide⟩

/-- Witness for `chunker_sieve_emits_wellformed` at a concrete emitted
range. -/
theorem chunker_sieve_emits_wellformed_witness :
    ∃ sync slen, (sync, slen) ∈ [([0x10, 0x20], 6)] ∧ (6 : Nat) = 0 + slen ∧
      6 ≤ ([0x10, 0x20, 0, 0, 0x9C, 0xD5] : Bytes).length ∧
      slice [0x10, 0x20, 0, 0, 0x9C, 0xD5] 0 sync.length = sync ∧
      calculate_checksum (slice [0x10, 0x20, 0, 0, 0x9C, 0xD5] 0 slen) slen
        = convert_word_to_int (slice [0x10, 0x20, 0, 0, 0x9C, 0xD5] (0 + slen - 2) 2) :=
  chunker_sieve_emits_wellformed [([0x10, 0x20], 6)] [0x10, 0x20, 0, 0, 0x9C, 0xD5]
    0 6 (by decide)

/-- C3 (amended): when the sieve's scan finds a sync occurrence at `start`,
it continues from `start + fixed_length` in **every** case: on a checksum
match it emits `(start, start + fixed_length)` and advances past the frame,
and on a mismatch (or incomplete candidate) it also advances the cursor by
the whole `fixed_length` — not by one byte — so a checksum-valid frame
whose sync begins inside the failed candidate's span is not emitted by that
structure's scan. -/
theorem scan_cursor_advance :
    ∀ (raw sync : Bytes) (slen fuel index start : Nat),
      findFrom raw sync index = some start →
      ((start + slen ≤ raw.length ∧ checksumMatches raw start slen = true →
        scanStruct raw sync slen (fuel + 1) index
          = (start, start + slen) :: scanStruct raw sync slen fuel (start + slen)) ∧
       (¬(start + slen ≤ raw.length ∧ checksumMatches raw start slen = true) →
        scanStruct raw sync slen (fuel + 1) index
          = scanStruct raw sync slen fuel (start + slen))) := by
  intro raw sync slen fuel index start hf
  constructor
  · intro hc
    rw [scanStruct_found hf, if_pos hc]
  · intro hc
    rw [scanStruct_found hf, if_neg hc]

/-- C3 counterexample (to the claim as stated: advance-by-one on mismatch):
with structure `(sync = 11 22, fixed_length = 6)` the buffer
`11 22 00 00 11 22 00 00 9D D7` contains a sync occurrence at offset 4 —
inside the span of the failed candidate at offset 0 — whose frame passes
the checksum, yet the sieve emits nothing: the scan jumped from offset 0 to
offset 6. -/
theorem scan_cursor_advance_counterexample :
    chunker_sieve_function [0x11, 0x22, 0, 0, 0x11, 0x22, 0, 0, 0x9D, 0xD7]
      [([0x11, 0x22], 6)] [] = ([], []) ∧
    slice [0x11, 0x22, 0, 0, 0x11, 0x22, 0, 0, 0x9D, 0xD7] 4 2 = [0x11, 0x22] ∧
    checksumMatches [0x11, 0x22, 0, 0, 0x11, 0x22, 0, 0, 0x9D, 0xD7] 4 6 = true := by
  refine ⟨by decide, by decide, by decide⟩

/-- Witness for `scan_cursor_advance`: a matching candidate (emit and skip)
and a mismatching candidate (skip without emitting), both concrete. -/
theorem scan_cursor_advance_witness :
    scanStruct [7, 8, 0, 0, 0x93, 0xBD] [7, 8] 6 7 0
      = (0, 6) :: scanStruct [7, 8, 0, 0, 0x93, 0xBD] [7, 8] 6 6 6 ∧
    scanStruct [7, 8, 0, 0, 0, 0] [7, 8] 6 7 0
      = scanStruct [7, 8, 0, 0, 0, 0] [7, 8] 6 6 6 :=
  ⟨(scan_cursor_advance [7, 8, 0, 0, 0x93, 0xBD] [7, 8] 6 6 0 0 (by decide)).1
      (by decide),
   (scan_cursor_advance [7, 8, 0, 0, 0, 0] [7, 8] 6 6 0 0 (by decide)).2
      (by decide)⟩

/-- C4: if any supplied name/value pair is rejected by `set_from_value`
(unknown parameter name, wrong value kind, or read-only target), then
`_handler_command_set` raises `InstrumentParameterException`, no bytes are
written to the instrument, and the live registry in effect after the call
has the same `get_config()` snapshot as before — staging happened in a
scratch copy (the `copy.copy` of driver.py:1631, whose isolation of the
live registry rests on the `ProtocolParameterDict` internals from
`mi/core`, modelled per spec §4.4 as an independent value), so a failure
partway through a multi-parameter set never leaves a partial update
observable. -/
theorem handler_command_set_aborts :
    ∀ (reg : Registry) (params : List (String × PValue))
      (serialize : Registry → Bytes),
      (∃ pv ∈ params, rejects reg pv) →
      (∃ msg, handler_command_set reg params serialize
          = .error (.instrumentParameterExc msg)) ∧
      sentBytes (handler_command_set reg params serialize) = [] ∧
      get_config (regAfterSet reg (handler_command_set reg params serialize))
        = get_config reg := by
  intro reg params serialize hrej
  rcases hrej with ⟨pv, hmem, hr⟩
  rcases stageAll_error_of_rejects params reg pv hmem hr with ⟨msg, hmsg⟩
  have hh : handler_command_set reg params serialize
      = .error (.instrumentParameterExc msg) := by
    rw [handler_command_set, hmsg]
  exact ⟨⟨msg, hh⟩, by rw [hh]; rfl, by rw [hh]; rfl⟩

/-- Witness for `handler_command_set_aborts`: a two-parameter batch on a
registry with one writable and one read-only parameter, where the second
pair targets the read-only parameter. -/
theorem handler_command_set_aborts_witness :
    (∃ msg, handler_command_set
        [("AvgInterval", ⟨.readWrite, .intKind, some (.pInt 32)⟩),
         ("InstrumentType", ⟨.readOnly, .intKind, some (.pInt 1)⟩)]
        [("AvgInterval", .pInt 64), ("InstrumentType", .pInt 2)]
        (fun _ => [])
        = .error (.instrumentParameterExc msg)) ∧
    sentBytes (handler_command_set
        [("AvgInterval", ⟨.readWrite, .intKind, some (.pInt 32)⟩),
         ("InstrumentType", ⟨.readOnly, .intKind, some (.pInt 1)⟩)]
        [("AvgInterval", .pInt 64), ("InstrumentType", .pInt 2)]
        (fun _ => [])) = [] ∧
    get_config (regAfterSet
        [("AvgInterval", ⟨.readWrite, .intKind, some (.pInt 32)⟩),
         ("InstrumentType", ⟨.readOnly, .intKind, some (.pInt 1)⟩)]
        (handler_command_set
          [("AvgInterval", ⟨.readWrite, .intKind, some (.pInt 32)⟩),
           ("InstrumentType", ⟨.readOnly, .intKind, some (.pInt 1)⟩)]
          [("AvgInterval", .pInt 64), ("InstrumentType", .pInt 2)]
          (fun _ => [])))
      = get_config
        [("AvgInterval", ⟨.readWrite, .intKind, some (.pInt 32)⟩),
         ("InstrumentType", ⟨.readOnly, .intKind, some (.pInt 1)⟩)] :=
  handler_command_set_aborts _ _ _
    ⟨("InstrumentType", .pInt 2), by simp, by simp [rejects, Registry.lookup]⟩

/-- C5 (amended): `set_from_value` first type-checks the value against the
parameter's formatter family — a mismatched value is rejected with
`InstrumentParameterException` before any mutation and before the
visibility check — then rejects a READ_ONLY target with `ReadOnlyException`
(in both error cases the registry in effect afterwards has an unchanged
`get_config()` snapshot); a parameter whose visibility is immutable is
**not** rejected: a correctly-typed value on an immutable parameter is
staged like a writable one. -/
theorem set_from_value_spec :
    (∀ (reg : Registry) (name : String) (v : PValue) (p : ParamInfo),
      reg.lookup name = some p → p.visibility = .readOnly →
      valueKind v = p.kind →
      set_from_value reg name v = .error (.readOnlyExc
        "Unable to set parameter %s to %s: parameter %s is read only") ∧
      get_config (regAfter reg (set_from_value reg name v)) = get_config reg) ∧
    (∀ (reg : Registry) (name : String) (v : PValue) (p : ParamInfo),
      reg.lookup name = some p → p.kind = .intKind → valueKind v ≠ .intKind →
      set_from_value reg name v = .error (.instrumentParameterExc
        "Unable to set parameter %s to %s: value not an integer") ∧
      get_config (regAfter reg (set_from_value reg name v)) = get_config reg) ∧
    (∀ (reg : Registry) (name : String) (v : PValue) (p : ParamInfo),
      reg.lookup name = some p → p.kind = .stringKind →
      valueKind v ≠ .stringKind →
      set_from_value reg name v = .error (.instrumentParameterExc
        "Unable to set parameter %s to %s: value not a string") ∧
      get_config (regAfter reg (set_from_value reg name v)) = get_config reg) ∧
    (∀ (reg : Registry) (name : String) (v : PValue),
      reg.lookup name = none →
      set_from_value reg name v = .error (.instrumentParameterExc
        "Unable to set parameter %s to %s: parameter %s not an dictionary") ∧
      get_config (regAfter reg (set_from_value reg name v)) = get_config reg) ∧
    (∀ (reg : Registry) (name : String) (v : PValue) (p : ParamInfo),
      reg.lookup name = some p → p.visibility = .immutable →
      valueKind v = p.kind →
      set_from_value reg name v = .ok (reg.setValue name v)) := by
  refine ⟨?_, ?_, ?_, ?_, ?_⟩
  · intro reg name v p hl hro hk
    have he : set_from_value reg name v = .error (.readOnlyExc
        "Unable to set parameter %s to %s: parameter %s is read only") := by
      rcases hpk : p.kind with _ | _
      · have hv : valueKind v = .intKind := by rw [hpk] at hk; exact hk
        simp [set_from_value, hl, hpk, hv, hro]
      · have hv : valueKind v = .stringKind := by rw [hpk] at hk; exact hk
        simp [set_from_value, hl, hpk, hv, hro]
    exact ⟨he, by rw [he]; rfl⟩
  · intro reg name v p hl hpk hv
    have he : set_from_value reg name v = .error (.instrumentParameterExc
        "Unable to set parameter %s to %s: value not an integer") := by
      simp [set_from_value, hl, hpk, hv]
    exact ⟨he, by rw [he]; rfl⟩
  · intro reg name v p hl hpk hv
    have he : set_from_value reg name v = .error (.instrumentParameterExc
        "Unable to set parameter %s to %s: value not a string") := by
      simp [set_from_value, hl, hpk, hv]
    exact ⟨he, by rw [he]; rfl⟩
  · intro reg name v hl
    have he : set_from_value reg name v = .error (.instrumentParameterExc
        "Unable to set parameter %s to %s: parameter %s not an dictionary") := by
      simp only [set_from_value, hl]
    exact ⟨he, by rw [he]; rfl⟩
  · intro reg name v p hl him hk
    have hro : p.visibility ≠ .readOnly := by rw [him]; decide
    rcases hpk : p.kind with _ | _
    · have hv : valueKind v = .intKind := by rw [hpk] at hk; exact hk
      simp [set_from_value, hl, hpk, hv, hro]
    · have hv : valueKind v = .stringKind := by rw [hpk] at hk; exact hk
      simp [set_from_value, hl, hpk, hv, hro]

/-- C5 counterexample (to the claim as stated): an immutable parameter is
not rejected — `set_from_value` on an immutable integer parameter succeeds
and updates the value cell. -/
theorem set_from_value_immutable_counterexample :
    set_from_value [("ClockDeploy", ⟨.immutable, .intKind, some (.pInt 1)⟩)]
        "ClockDeploy" (.pInt 2)
      = .ok [("ClockDeploy", ⟨.immutable, .intKind, some (.pInt 2)⟩)] := by
  decide

/-- Witness for `set_from_value_spec`: the read-only rejection, both type
rejections, the unknown-name rejection, and the immutable acceptance, each
at a concrete registry. -/
theorem set_from_value_spec_witness :
    (set_from_value [("InstrumentType", ⟨.readOnly, .intKind, none⟩)]
        "InstrumentType" (.pInt 2) = .error (.readOnlyExc
        "Unable to set parameter %s to %s: parameter %s is read only") ∧
      get_config (regAfter [("InstrumentType", ⟨.readOnly, .intKind, none⟩)]
          (set_from_value [("InstrumentType", ⟨.readOnly, .intKind, none⟩)]
            "InstrumentType" (.pInt 2)))
        = get_config [("InstrumentType", ⟨.readOnly, .intKind, none⟩)]) ∧
    (set_from_value [("AvgInterval", ⟨.readWrite, .intKind, none⟩)]
        "AvgInterval" (.pStr "x") = .error (.instrumentParameterExc
        "Unable to set parameter %s to %s: value not an integer")) ∧
    (set_from_value [("DeploymentName", ⟨.readWrite, .stringKind, none⟩)]
        "DeploymentName" (.pInt 3) = .error (.instrumentParameterExc
        "Unable to set parameter %s to %s: value not a string")) ∧
    (set_from_value [] "Missing" (.pInt 1) = .error (.instrumentParameterExc
        "Unable to set parameter %s to %s: parameter %s not an dictionary")) ∧
    (set_from_value [("ClockDeploy2", ⟨.immutable, .stringKind, none⟩)]
        "ClockDeploy2" (.pStr "ab")
      = .ok (Registry.setValue [("ClockDeploy2", ⟨.immutable, .stringKind, none⟩)]
          "ClockDeploy2" (.pStr "ab"))) :=
  ⟨(set_from_value_spec.1 [("InstrumentType", ⟨.readOnly, .intKind, none⟩)]
      "InstrumentType" (.pInt 2) ⟨.readOnly, .intKind, none⟩ rfl rfl rfl),
   (set_from_value_spec.2.1 [("AvgInterval", ⟨.readWrite, .intKind, none⟩)]
      "AvgInterval" (.pStr "x") ⟨.readWrite, .intKind, none⟩ rfl rfl (by decide)).1,
   (set_from_value_spec.2.2.1 [("DeploymentName", ⟨.readWrite, .stringKind, none⟩)]
      "DeploymentName" (.pInt 3) ⟨.readWrite, .stringKind, none⟩ rfl rfl
      (by decide)).1,
   (set_from_value_spec.2.2.2.1 [] "Missing" (.pInt 1) rfl).1,
   set_from_value_spec.2.2.2.2 [("ClockDeploy2", ⟨.immutable, .stringKind, none⟩)]
      "ClockDeploy2" (.pStr "ab") ⟨.immutable, .stringKind, none⟩ rfl rfl rfl⟩

/-- C6: `_handler_unknown_discover` returns COMMAND on the 'Command mode'
prompt, AUTOSAMPLE on the 'Confirm:' prompt, and on the bare ACK prompt
chooses COMMAND or AUTOSAMPLE by which mode sentinel occurs in the
accumulated prompt buffer; with the ACK prompt but no known sentinel it
fails with `InstrumentStateException`; `_get_mode` itself never returns the
negative-acknowledgment sentinel and raises `InstrumentTimeoutException`
when every probe iteration within the timeout fails to match. -/
theorem handler_unknown_discover_spec :
    (∀ (snaps : List Bytes) (buf : Bytes),
      get_mode snaps = .ok (COMMAND_MODE, buf) →
      handler_unknown_discover snaps = .ok (.command, .idle)) ∧
    (∀ (snaps : List Bytes) (buf : Bytes),
      get_mode snaps = .ok (CONFIRMATION, buf) →
      handler_unknown_discover snaps = .ok (.autosample, .streaming)) ∧
    (∀ (snaps : List Bytes) (buf : Bytes),
      get_mode snaps = .ok (Z_ACK, buf) →
      containsBytes buf MODE_COMMAND = true →
      handler_unknown_discover snaps = .ok (.command, .idle)) ∧
    (∀ (snaps : List Bytes) (buf : Bytes),
      get_mode snaps = .ok (Z_ACK, buf) →
      containsBytes buf MODE_COMMAND = false →
      (containsBytes buf MODE_MEASUREMENT = true ∨
       containsBytes buf MODE_CONFIRMATION = true) →
      handler_unknown_discover snaps = .ok (.autosample, .streaming)) ∧
    (∀ (snaps : List Bytes) (buf : Bytes),
      get_mode snaps = .ok (Z_ACK, buf) →
      containsBytes buf MODE_COMMAND = false →
      containsBytes buf MODE_MEASUREMENT = false →
      containsBytes buf MODE_CONFIRMATION = false →
      handler_unknown_discover snaps = .error (.instrumentStateExc "Unknown state.")) ∧
    (∀ (snaps : List Bytes) (p buf : Bytes),
      get_mode snaps = .ok (p, buf) → p ≠ Z_NACK) ∧
    (∀ snaps : List Bytes, (∀ b ∈ snaps, pollPrompt b = none) →
      get_mode snaps = .error .instrumentTimeoutExc) := by
  refine ⟨?_, ?_, ?_, ?_, ?_, ?_, ?_⟩
  · intro snaps buf h
    simp [handler_unknown_discover, h]
  · intro snaps buf h
    simp [handler_unknown_discover, h, CONFIRMATION, COMMAND_MODE]
  · intro snaps buf h hcmd
    simp [handler_unknown_discover, h, hcmd, Z_ACK, COMMAND_MODE, CONFIRMATION]
  · intro snaps buf h hcmd hms
    have hor : (containsBytes buf MODE_MEASUREMENT
        || containsBytes buf MODE_CONFIRMATION) = true := by
      rcases hms with h1 | h1 <;> simp [h1]
    simp [handler_unknown_discover, h, hcmd, hor, Z_ACK, COMMAND_MODE, CONFIRMATION]
  · intro snaps buf h hcmd hm hc
    simp [handler_unknown_discover, h, hcmd, hm, hc, Z_ACK, COMMAND_MODE, CONFIRMATION]
  · intro snaps
    induction snaps with
    | nil => intro p buf h; cases h
    | cons b rest ih =>
      intro p buf h
      rw [get_mode] at h
      rcases hp : pollPrompt b with _ | q
      · rw [hp] at h
        exact ih p buf h
      · rw [hp] at h
        have hq : q = p := congrArg Prod.fst (Except.ok.inj h)
        rcases pollPrompt_cases hp with h1 | h1 | h1 <;> rw [← hq, h1] <;> decide
  · intro snaps hall
    induction snaps with
    | nil => rfl
    | cons b rest ih =>
      rw [get_mode, hall b (List.mem_cons_self b rest)]
      exact ih (fun x hx => hall x (List.mem_cons_of_mem b hx))

/-- Witness for `handler_unknown_discover_spec`: each branch exercised at a
concrete probe-buffer sequence. -/
theorem handler_unknown_discover_spec_witness :
    handler_unknown_discover [COMMAND_MODE] = .ok (.command, .idle) ∧
    handler_unknown_discover [CONFIRMATION] = .ok (.autosample, .streaming) ∧
    handler_unknown_discover [[0x02, 0x00, 0x06, 0x06]] = .ok (.command, .idle) ∧
    handler_unknown_discover [[0x01, 0x00, 0x06, 0x06]] = .ok (.autosample, .streaming) ∧
    handler_unknown_discover [[0x06, 0x06, 0x09]]
      = .error (.instrumentStateExc "Unknown state.") ∧
    Z_ACK ≠ Z_NACK ∧
    get_mode [[0x00], [0x15, 0x15]] = .error .instrumentTimeoutExc :=
  ⟨handler_unknown_discover_spec.1 [COMMAND_MODE] COMMAND_MODE (by decide),
   handler_unknown_discover_spec.2.1 [CONFIRMATION] CONFIRMATION (by decide),
   handler_unknown_discover_spec.2.2.1 [[0x02, 0x00, 0x06, 0x06]]
     [0x02, 0x00, 0x06, 0x06] (by decide) (by decide),
   handler_unknown_discover_spec.2.2.2.1 [[0x01, 0x00, 0x06, 0x06]]
     [0x01, 0x00, 0x06, 0x06] (by decide) (by decide) (Or.inl (by decide)),
   handler_unknown_discover_spec.2.2.2.2.1 [[0x06, 0x06, 0x09]] [0x06, 0x06, 0x09]
     (by decide) (by decide) (by decide) (by decide),
   handler_unknown_discover_spec.2.2.2.2.2.1 [[0x06, 0x06, 0x09]] Z_ACK
     [0x06, 0x06, 0x09] (by decide),
   handler_unknown_discover_spec.2.2.2.2.2.2 [[0x00], [0x15, 0x15]]
     (by decide)⟩

theorem flatMap_byteToBits_length :
    ∀ l : List Nat, (l.flatMap byteToBits).length = 8 * l.length := by
  intro l
  induction l with
  | nil => rfl
  | cons a t ih =>
    rw [List.flatMap_cons, List.length_append, ih]
    have h8 : (byteToBits a).length = 8 := rfl
    rw [h8, List.length_cons]
    ring

/-- C7: `convert_bytes_to_bit_field` returns exactly `8 * len(bs)` elements,
each 0 or 1, obtained by reversing the byte order and expanding each byte
MSB-first into 8 bits, so the last element is the least significant bit of
the first input byte; and for every byte pair `(b0, b1)` the spec's inverse
reconstruction satisfies
`bitfield_to_bytes (convert_bytes_to_bit_field [b0, b1]) = [b0, b1]`. -/
theorem convert_bytes_to_bit_field_spec :
    (∀ bs : Bytes, (convert_bytes_to_bit_field bs).length = 8 * bs.length) ∧
    (∀ (bs : Bytes) (x : Nat), x ∈ convert_bytes_to_bit_field bs → x = 0 ∨ x = 1) ∧
    (∀ (b : Nat) (bs : Bytes),
      (convert_bytes_to_bit_field (b :: bs)).getLast? = some (b % 2)) ∧
    (∀ b0 b1 : Nat, b0 < 256 → b1 < 256 →
      bitfield_to_bytes (convert_bytes_to_bit_field [b0, b1]) = [b0, b1]) := by
  refine ⟨?_, ?_, ?_, ?_⟩
  · intro bs
    rw [convert_bytes_to_bit_field, flatMap_byteToBits_length, List.length_reverse]
  · intro bs x hx
    rw [convert_bytes_to_bit_field, List.mem_flatMap] at hx
    rcases hx with ⟨b, _, hb⟩
    have hmem : x = b / 128 % 2 ∨ x = b / 64 % 2 ∨ x = b / 32 % 2 ∨ x = b / 16 % 2 ∨
        x = b / 8 % 2 ∨ x = b / 4 % 2 ∨ x = b / 2 % 2 ∨ x = b % 2 := by
      simpa [byteToBits] using hb
    rcases hmem with h | h | h | h | h | h | h | h <;> rw [h] <;>
      exact Nat.mod_two_eq_zero_or_one _
  · intro b bs
    rw [convert_bytes_to_bit_field, List.reverse_cons, List.flatMap_append,
      List.getLast?_append_of_ne_nil _ (by simp [byteToBits])]
    rfl
  · intro b0 b1 h0 h1
    have key : ∀ b : Nat, b < 256 → bitsToByte (byteToBits b) = b := fun b h =>
      bitsToByte_byteToBits ⟨b, h⟩
    have hred : bitfield_to_bytes (convert_bytes_to_bit_field [b0, b1])
        = [bitsToByte (byteToBits b0), bitsToByte (byteToBits b1)] := rfl
    rw [hred, key b0 h0, key b1 h1]

/-- Witness for `convert_bytes_to_bit_field_spec`: the round trip at the
documented example bytes `05 01`. -/
theorem convert_bytes_to_bit_field_spec_witness :
    bitfield_to_bytes (convert_bytes_to_bit_field [5, 1]) = [5, 1] :=
  convert_bytes_to_bit_field_spec.2.2.2 5 1 (by decide) (by decide)

set_option maxRecDepth 8192 in
/-- `chr(int(str(n), 16))` on a two-decimal-digit value re-packs the digits
as hex nibbles (all 100 cases). -/
theorem bcdEncodeInt_two_digits :
    ∀ y : Fin 100, bcdEncodeInt y.val = .ok (16 * (y.val / 10) + y.val % 10) := by
  decide

/-- C8: for every 6-byte string in which each byte is valid packed BCD
(both hex nibbles decimal digits), `convert_words_to_datetime` returns the
6 integers obtained by reading each byte's two-hex-digit representation as
a decimal number, and `convert_datetime_to_words` re-encodes them to the
same bytes. -/
theorem datetime_bcd_roundtrip :
    ∀ bs : Bytes, bs.length = 6 → (∀ b ∈ bs, b / 16 ≤ 9 ∧ b % 16 ≤ 9) →
      convert_words_to_datetime bs = .ok (bs.map (fun b => 10 * (b / 16) + b % 16)) ∧
      (convert_words_to_datetime bs).bind convert_datetime_to_words = .ok bs := by
  intro bs hlen hall
  have hdec : ∀ b ∈ bs, bcdDecodeByte b = .ok (10 * (b / 16) + b % 16) := by
    intro b hb
    rcases hall b hb with ⟨h1, h2⟩
    simp [bcdDecodeByte, h1, h2]
  have hfwd : convert_words_to_datetime bs
      = .ok (bs.map (fun b => 10 * (b / 16) + b % 16)) := by
    rw [convert_words_to_datetime, if_neg (by simp [hlen])]
    exact mapExc_eq_ok_map hdec
  refine ⟨hfwd, ?_⟩
  rw [hfwd]
  show convert_datetime_to_words (bs.map (fun b => 10 * (b / 16) + b % 16)) = .ok bs
  have hlen2 : (bs.map (fun b => 10 * (b / 16) + b % 16)).length = 6 := by
    rw [List.length_map, hlen]
  rw [convert_datetime_to_words, if_neg (by simp [hlen2])]
  have henc : ∀ y ∈ bs.map (fun b => 10 * (b / 16) + b % 16),
      bcdEncodeInt y = .ok (16 * (y / 10) + y % 10) := by
    intro y hy
    rcases List.mem_map.mp hy with ⟨b, hb, rfl⟩
    rcases hall b hb with ⟨h1, h2⟩
    exact bcdEncodeInt_two_digits ⟨10 * (b / 16) + b % 16, by omega⟩
  rw [mapExc_eq_ok_map henc, List.map_map]
  have hid : ∀ b ∈ bs,
      (16 * ((10 * (b / 16) + b % 16) / 10) + (10 * (b / 16) + b % 16) % 10) = b := by
    intro b hb
    rcases hall b hb with ⟨h1, h2⟩
    omega
  have : bs.map ((fun y => 16 * (y / 10) + y % 10)
      ∘ (fun b => 10 * (b / 16) + b % 16)) = bs.map id := by
    apply List.map_congr_left
    intro b hb
    simpa using hid b hb
  rw [this, List.map_id]

/-- Witness for `datetime_bcd_roundtrip`: a concrete BCD clock reading. -/
theorem datetime_bcd_roundtrip_witness :
    convert_words_to_datetime [0x15, 0x30, 0x01, 0x12, 0x14, 0x09]
      = .ok ([0x15, 0x30, 0x01, 0x12, 0x14, 0x09].map
          (fun b => 10 * (b / 16) + b % 16)) ∧
    (convert_words_to_datetime [0x15, 0x30, 0x01, 0x12, 0x14, 0x09]).bind
        convert_datetime_to_words
      = .ok [0x15, 0x30, 0x01, 0x12, 0x14, 0x09] :=
  datetime_bcd_roundtrip [0x15, 0x30, 0x01, 0x12, 0x14, 0x09] (by decide) (by decide)

/-- C9 (amended): the word, double-word and datetime conversions given a
buffer whose length differs from the expected width (2, 4, 6, 6) fail with
a `SampleException` carrying the actual length; the bit-field conversion,
however, performs no length check at all — it is total and returns
`8 * len` bits for an input of any length. -/
theorem codec_wrong_length_errors :
    (∀ w : Bytes, w.length ≠ 2 →
      convert_word_to_int w = .error (.sampleExc
        "Invalid number of bytes in word input! Found %s with input %s"
        (some w.length))) ∧
    (∀ d : Bytes, d.length ≠ 4 →
      convert_double_word_to_int d = .error (.sampleExc
        "Invalid number of bytes in double word input! Found %s" (some d.length))) ∧
    (∀ bs : Bytes, bs.length ≠ 6 →
      convert_words_to_datetime bs = .error (.sampleExc
        "Invalid number of bytes in input! Found %s" (some bs.length))) ∧
    (∀ ns : List Nat, ns.length ≠ 6 →
      convert_datetime_to_words ns = .error (.sampleExc
        "Invalid number of bytes in date/time input! Found %s" (some ns.length))) ∧
    (∀ bs : Bytes, (convert_bytes_to_bit_field bs).length = 8 * bs.length) := by
  refine ⟨?_, ?_, ?_, ?_, ?_⟩
  · intro w h
    rcases w with _ | ⟨a, _ | ⟨b, _ | ⟨c, t⟩⟩⟩
    · rfl
    · rfl
    · exact absurd rfl h
    · rfl
  · intro d h
    rw [convert_double_word_to_int, if_pos h]
  · intro bs h
    rw [convert_words_to_datetime, if_pos h]
  · intro ns h
    rw [convert_datetime_to_words, if_pos h]
  · intro bs
    rw [convert_bytes_to_bit_field, flatMap_byteToBits_length, List.length_reverse]

/-- C9 counterexample (to the claim as stated): a 3-byte input to the
bit-field conversion — every call site expects 2 bytes — does not raise at
all: it returns a 24-element bit list. -/
theorem bit_field_no_length_check_counterexample :
    convert_bytes_to_bit_field [0, 0, 0] = List.replicate 24 0 ∧
    (convert_bytes_to_bit_field [0, 0, 0]).length = 24 := by
  refine ⟨by decide, by decide⟩

/-- Witness for `codec_wrong_length_errors`: each conversion at a concrete
wrong-length input. -/
theorem codec_wrong_length_errors_witness :
    convert_word_to_int [1, 2, 3] = .error (.sampleExc
      "Invalid number of bytes in word input! Found %s with input %s" (some 3)) ∧
    convert_double_word_to_int [1] = .error (.sampleExc
      "Invalid number of bytes in double word input! Found %s" (some 1)) ∧
    convert_words_to_datetime [1, 2] = .error (.sampleExc
      "Invalid number of bytes in input! Found %s" (some 2)) ∧
    convert_datetime_to_words [] = .error (.sampleExc
      "Invalid number of bytes in date/time input! Found %s" (some 0)) ∧
    (convert_bytes_to_bit_field [9, 9, 9]).length = 8 * 3 :=
  ⟨codec_wrong_length_errors.1 [1, 2, 3] (by decide),
   codec_wrong_length_errors.2.1 [1] (by decide),
   codec_wrong_length_errors.2.2.1 [1, 2] (by decide),
   codec_wrong_length_errors.2.2.2.1 [] (by decide),
   codec_wrong_length_errors.2.2.2.2 [9, 9, 9]⟩

/-- C10: a dynamically registered ack-terminated structure is consumed at
most once: when its registered byte string occurs in the buffer the sieve
emits `(start, start + len(sync))` — with no checksum verification, for any
buffer contents — and removes the registration, so a second invocation over
the same unchanged buffer (now with the empty dynamic list) emits only the
fixed-structure ranges. -/
theorem dynamic_struct_consumed_once :
    ∀ (raw sync : Bytes) (slen start : Nat) (add_structs : List (Bytes × Nat)),
      findFrom raw sync 0 = some start →
      chunker_sieve_function raw add_structs [(sync, slen)]
        = (sieveFixed (add_structs ++ NORTEK_COMMON_SAMPLE_STRUCTS) raw
            ++ [(start, start + sync.length)], []) ∧
      chunker_sieve_function raw add_structs []
        = (sieveFixed (add_structs ++ NORTEK_COMMON_SAMPLE_STRUCTS) raw, []) := by
  intro raw sync slen start adds hf
  constructor
  · have hd : dynLoop raw 2 0 [(sync, slen)] = ([(start, start + sync.length)], []) := by
      simp [dynLoop, hf, removeFirst]
    simp [chunker_sieve_function, hd]
  · simp [chunker_sieve_function, dynLoop]

/-- Witness for `dynamic_struct_consumed_once`: the 3-byte registration
`[1, 2, 3]` found at offset 2 of a 6-byte buffer with no fixed-structure
match. -/
theorem dynamic_struct_consumed_once_witness :
    chunker_sieve_function [9, 9, 1, 2, 3, 9] [] [([1, 2, 3], 14)]
      = (sieveFixed ([] ++ NORTEK_COMMON_SAMPLE_STRUCTS) [9, 9, 1, 2, 3, 9]
          ++ [(2, 2 + ([1, 2, 3] : Bytes).length)], []) ∧
    chunker_sieve_function [9, 9, 1, 2, 3, 9] [] []
      = (sieveFixed ([] ++ NORTEK_COMMON_SAMPLE_STRUCTS) [9, 9, 1, 2, 3, 9], []) :=
  dynamic_struct_consumed_once [9, 9, 1, 2, 3, 9] [1, 2, 3] 14 2 [] (by decide)

end NortekDriver
